import Mathlib

/-!
Shallow embedding of src/util.py, a beat-detection utility module for
MIR experiments: dataset loading, spectral-flux beat estimation, score
evaluation and aggregation helpers, and two time-axis helpers.

Modelling conventions. Python dictionaries are association lists in
insertion order with unique keys; iterating a dictionary yields each
key once, paired with its value. A dictionary index d[k] that can raise
KeyError is an Option-valued lookup, and a function whose body performs
such an index returns Option, with none standing for the KeyError.
External collaborators are abstracted: the mirdata entry point becomes
an abstract handle constructor recording its arguments, audio decoding
and the novelty and pulse computations of librosa become inputs to the
estimator, and the mir_eval metric becomes a function parameter. The
small librosa array utilities the code composes directly, whose
documented semantics are pure array arithmetic (localmax, where,
frames_to_time), are embedded concretely. Real-valued arrays are lists
of rationals.
-/

namespace BeatFlux

/-- Model of the handle the external mirdata dataset service returns:
a record of the arguments the service received. -/
structure Dataset where
  name : String
  data_home : String
  version : String
deriving DecidableEq

/-- Abstract model of the external dataset service entry point, which
builds a handle for the dataset named by its first argument. -/
def mirdataInit (dataset_name : String) (data_home : String) (version : String) : Dataset :=
  Dataset.mk dataset_name data_home version

/-- util.load_data. The call into the dataset service passes the
hard-coded string gtzan_genre as the dataset name, whatever the value
of the dataset_name argument; data_home and dataset_version are passed
through. -/
def load_data (dataset_name : String) (data_home : String) (dataset_version : String) : Dataset :=
  mirdataInit "gtzan_genre" data_home dataset_version

/-- Reference beat annotation of a track, as exposed by track.beats. -/
structure Beats where
  times : List ℚ
deriving DecidableEq

/-- A mirdata track record, with the fields the module reads. -/
structure Track where
  beats : Beats
  genre : String
  tempo : ℚ
deriving DecidableEq

/-- Fallback track value used only to state getD-style equations. -/
def dummyTrack : Track :=
  Track.mk (Beats.mk []) "" 0

/-- Python dictionary index d[k]: the value at the key, or none when
the key is absent (a KeyError). -/
def dictGet {α : Type} (d : List (String × α)) (k : String) : Option α :=
  (d.find? (fun p => p.1 == k)).map Prod.snd

/-- librosa.util.localmax on a 1-d array, edge-padded: position i is a
local maximum when x[i] is strictly greater than its left neighbour and
at least its right neighbour. With edge padding the left neighbour of
index 0 is x[0] itself (so index 0 is never a local maximum) and the
right neighbour of the last index is the last value itself. Nat
subtraction gives exactly the edge-padded left neighbour at i = 0, and
min gives the edge-padded right neighbour at the last index. -/
def localmax (x : List ℚ) : List Bool :=
  (List.range x.length).map (fun i =>
    decide (x.getD (i - 1) 0 < x.getD i 0) &&
    decide (x.getD (min (i + 1) (x.length - 1)) 0 ≤ x.getD i 0))

/-- np.where on a 1-d boolean array: the indices holding true, in
ascending order. -/
def whereTrue (bs : List Bool) : List ℕ :=
  (List.range bs.length).filter (fun i => bs.getD i false)

/-- librosa.frames_to_time: time = frame_index * hop_length / sr. -/
def frames_to_time (frames : List ℕ) (sr : ℕ) (hop_length : ℕ) : List ℚ :=
  frames.map (fun f => ((f * hop_length : ℕ) : ℚ) / (sr : ℚ))

/-- util.estimate_beats_spectral_flux, with the decode and novelty
collaborators abstracted into inputs: activation is the onset-strength
curve and plp the predominant-local-pulse curve the collaborators
produce for the audio file, sr the native sampling rate of the file.
The function keeps the local-maximum frames of the pulse curve and
converts them to second-denominated timestamps, returning them together
with the activation curve. -/
def estimate_beats_spectral_flux (activation : List ℚ) (plp : List ℚ) (sr : ℕ) (hop_length : ℕ) :
    List ℚ × List ℚ :=
  (frames_to_time (whereTrue (localmax plp)) sr hop_length, activation)

/-- util.evaluate_estimated_beats, with the external mir_eval metric
passed as the parameter f_measure. The loop runs over the first
dictionary and indexes the second with each key, so a key of the first
dictionary absent from the second is a KeyError (none), never a skipped
entry. -/
def evaluate_estimated_beats (f_measure : List ℚ → List ℚ → ℚ)
    (data : List (String × Track)) (estimated_beats : List (String × List ℚ)) :
    Option (List (String × ℚ)) :=
  match data with
  | [] => some []
  | p :: rest =>
    match dictGet estimated_beats p.1 with
    | none => none
    | some e =>
      match evaluate_estimated_beats f_measure rest estimated_beats with
      | none => none
      | some r => some ((p.1, f_measure p.2.beats.times e) :: r)

/-- First loop of util.split_by_genre, with acc the genres list built
so far: append the genre of each track unless already present. -/
def collectGenresAux (acc : List String) : List (String × Track) → List String
  | [] => acc
  | p :: rest => collectGenresAux (if p.2.genre ∈ acc then acc else acc ++ [p.2.genre]) rest

/-- Genre labels of the tracks dictionary in first-seen order with
duplicates suppressed, as the first loop of util.split_by_genre
computes them. -/
def collectGenres (tracks_dictionary : List (String × Track)) : List String :=
  collectGenresAux [] tracks_dictionary

/-- Inner loop of util.split_by_genre for one genre: keep the score
entries whose track carries this genre. The track lookup runs for every
score key, so a score key absent from the tracks dictionary is a
KeyError. -/
def genreFilter (tracks_dictionary : List (String × Track)) (genre : String) :
    List (String × ℚ) → Option (List (String × ℚ))
  | [] => some []
  | p :: rest =>
    match dictGet tracks_dictionary p.1 with
    | none => none
    | some t =>
      match genreFilter tracks_dictionary genre rest with
      | none => none
      | some r => some (if t.genre == genre then p :: r else r)

/-- Outer loop of util.split_by_genre: one sub-dictionary per collected
genre, in order. -/
def splitLoop (scores_dictionary : List (String × ℚ)) (tracks_dictionary : List (String × Track)) :
    List String → Option (List (String × List (String × ℚ)))
  | [] => some []
  | g :: rest =>
    match genreFilter tracks_dictionary g scores_dictionary with
    | none => none
    | some sub =>
      match splitLoop scores_dictionary tracks_dictionary rest with
      | none => none
      | some r => some ((g, sub) :: r)

/-- util.split_by_genre. -/
def split_by_genre (scores_dictionary : List (String × ℚ)) (tracks_dictionary : List (String × Track)) :
    Option (List (String × List (String × ℚ))) :=
  splitLoop scores_dictionary tracks_dictionary (collectGenres tracks_dictionary)

/-- util.get_tempo_vs_performance: one pass over the scores dictionary,
appending the tempo of the corresponding track and the score to two
parallel arrays; the track lookup can raise KeyError. -/
def get_tempo_vs_performance (scores_dictionary : List (String × ℚ))
    (tracks_dictionary : List (String × Track)) : Option (List ℚ × List ℚ) :=
  match scores_dictionary with
  | [] => some ([], [])
  | p :: rest =>
    match dictGet tracks_dictionary p.1 with
    | none => none
    | some t =>
      match get_tempo_vs_performance rest tracks_dictionary with
      | none => none
      | some (tempo, scores) => some (t.tempo :: tempo, p.2 :: scores)

/-- util.compute_time_sf: np.arange over the curve length, scaled by
hop_size / sr. -/
def compute_time_sf (novelty_sf : List ℚ) (hop_size : ℕ) (sr : ℕ) : List ℚ :=
  (List.range novelty_sf.length).map (fun i => ((i * hop_size : ℕ) : ℚ) / (sr : ℚ))

/-- util.compute_time_ml: np.arange over the curve length divided by
the novelty rate (default 100 in the source). -/
def compute_time_ml (novelty_ml : List ℚ) (sr_ml : ℚ) : List ℚ :=
  (List.range novelty_ml.length).map (fun (i : ℕ) => (i : ℚ) / sr_ml)

/-- util.sonify_track_data: the body is the single statement pass, so
the function does nothing and returns None. -/
def sonify_track_data (track_id : String) (estimated_beats : List (String × List ℚ))
    (tracks_dictionary : List (String × Track)) : Unit :=
  ()

/-- Example track records for concrete instances: two rock tracks with
tempos 120 and 90 and a jazz track. -/
def trackRockA : Track :=
  Track.mk (Beats.mk []) "rock" 120

/-- Second example rock track, tempo 90. -/
def trackRockB : Track :=
  Track.mk (Beats.mk []) "rock" 90

/-- Example jazz track, tempo 140. -/
def trackJazzC : Track :=
  Track.mk (Beats.mk []) "jazz" 140

/-- C1: the claim says the dataset_name argument determines which
dataset is initialized; evaluating load_data at the failing input
dataset_name = beatles shows the handle is built for gtzan_genre
instead, while the docstring of load_data promises the dataset
corresponding to the specified name. -/
theorem load_data_ignores_dataset_name :
    (load_data "beatles" "/data" "mini").name = "gtzan_genre" ∧
    (load_data "beatles" "/data" "mini").name ≠ "beatles" ∧
    load_data "beatles" "/data" "mini" = load_data "gtzan_genre" "/data" "mini" := by
  refine ⟨rfl, ?_, rfl⟩
  decide

/-- The localmax mask has one entry per frame of the pulse curve. -/
theorem localmax_length (x : List ℚ) : (localmax x).length = x.length := by
  simp [localmax]

/-- The indices np.where returns are strictly increasing. -/
theorem whereTrue_pairwise (bs : List Bool) : (whereTrue bs).Pairwise (· < ·) :=
  (List.pairwise_lt_range bs.length).filter _

/-- Every index np.where returns is an index into the array. -/
theorem whereTrue_lt_length (bs : List Bool) : ∀ f ∈ whereTrue bs, f < bs.length := by
  intro f hf
  exact List.mem_range.mp (List.mem_of_mem_filter hf)

/-- C2: the beat timestamps estimate_beats_spectral_flux returns are
monotonically non-decreasing (indeed strictly increasing), each equals
frame_index * hop_length / sample_rate where the frame indices are the
strictly increasing local-maximum indices of the pulse curve, and all
lie within [0, duration]. The hypotheses record that the sampling rate
and hop length are positive and that the pulse curve the collaborator
produces spans at most the track: (length - 1) * hop_length ≤
sample_rate * duration, i.e. the last frame starts inside the track. -/
theorem estimate_beats_spectral_flux_spec (activation plp : List ℚ) (sr hop_length : ℕ)
    (duration : ℚ) (hsr : 0 < sr) (hhop : 0 < hop_length)
    (hdur : (((plp.length - 1) * hop_length : ℕ) : ℚ) ≤ (sr : ℚ) * duration) :
    (estimate_beats_spectral_flux activation plp sr hop_length).1.Pairwise (· ≤ ·) ∧
    (∀ t ∈ (estimate_beats_spectral_flux activation plp sr hop_length).1,
      0 ≤ t ∧ t ≤ duration) ∧
    (whereTrue (localmax plp)).Pairwise (· < ·) ∧
    (estimate_beats_spectral_flux activation plp sr hop_length).1
      = (whereTrue (localmax plp)).map (fun f => ((f * hop_length : ℕ) : ℚ) / (sr : ℚ)) := by
  have hsr' : (0 : ℚ) < (sr : ℚ) := by exact_mod_cast hsr
  have hfst : (estimate_beats_spectral_flux activation plp sr hop_length).1
      = (whereTrue (localmax plp)).map (fun f => ((f * hop_length : ℕ) : ℚ) / (sr : ℚ)) := rfl
  refine ⟨?_, ?_, whereTrue_pairwise _, hfst⟩
  · rw [hfst]
    refine List.Pairwise.map _ ?_ (whereTrue_pairwise _)
    intro a b hab
    have h1 : (a * hop_length : ℕ) ≤ (b * hop_length : ℕ) :=
      Nat.mul_le_mul_right _ (Nat.le_of_lt hab)
    have h2 : ((a * hop_length : ℕ) : ℚ) ≤ ((b * hop_length : ℕ) : ℚ) := by exact_mod_cast h1
    exact div_le_div_of_nonneg_right h2 (le_of_lt hsr')
  · rw [hfst]
    intro t ht
    obtain ⟨f, hf, rfl⟩ := List.mem_map.mp ht
    constructor
    · exact div_nonneg (by positivity) (le_of_lt hsr')
    · rw [div_le_iff₀ hsr']
      have hflt : f < plp.length := by
        have := whereTrue_lt_length (localmax plp) f hf
        rwa [localmax_length] at this
      have hfle : f ≤ plp.length - 1 := Nat.le_sub_one_of_lt hflt
      have h3 : (f * hop_length : ℕ) ≤ ((plp.length - 1) * hop_length : ℕ) :=
        Nat.mul_le_mul_right _ hfle
      have h4 : ((f * hop_length : ℕ) : ℚ) ≤ (((plp.length - 1) * hop_length : ℕ) : ℚ) := by
        exact_mod_cast h3
      calc ((f * hop_length : ℕ) : ℚ) ≤ (((plp.length - 1) * hop_length : ℕ) : ℚ) := h4
        _ ≤ (sr : ℚ) * duration := hdur
        _ = duration * (sr : ℚ) := mul_comm _ _

/-- Witness for C2 at the concrete pulse curve [0, 2, 1, 3, 1] (local
maxima at frames 1 and 3), sampling rate 4, hop 2, duration 2. -/
theorem estimate_beats_spectral_flux_spec_witness :
    (estimate_beats_spectral_flux [1, 2] [0, 2, 1, 3, 1] 4 2).1.Pairwise (· ≤ ·) ∧
    (∀ t ∈ (estimate_beats_spectral_flux [1, 2] [0, 2, 1, 3, 1] 4 2).1, 0 ≤ t ∧ t ≤ 2) ∧
    (whereTrue (localmax [0, 2, 1, 3, 1])).Pairwise (· < ·) := by
  have h := estimate_beats_spectral_flux_spec [1, 2] [0, 2, 1, 3, 1] 4 2 2
    (by decide) (by decide) (by norm_num)
  exact ⟨h.1, h.2.1, h.2.2.1⟩

/-- C4: compute_time_sf returns an array whose length is the length of
the novelty curve, whose element i equals i * hop_size / sr, which
starts at 0 and is strictly increasing; being a Lean function of its
arguments it is total over any non-negative-length input. Strict
increase uses the positivity of the hop size and of the sampling rate,
both positive quantities by nature (defaults 512 and 22050). -/
theorem compute_time_sf_spec (novelty_sf : List ℚ) (hop_size sr : ℕ)
    (hhop : 0 < hop_size) (hsr : 0 < sr) :
    (compute_time_sf novelty_sf hop_size sr).length = novelty_sf.length ∧
    (∀ i, i < novelty_sf.length →
      (compute_time_sf novelty_sf hop_size sr).getD i 0 = (i : ℚ) * (hop_size : ℚ) / (sr : ℚ)) ∧
    (0 < novelty_sf.length → (compute_time_sf novelty_sf hop_size sr).getD 0 0 = 0) ∧
    (compute_time_sf novelty_sf hop_size sr).Pairwise (· < ·) := by
  have hlen : (compute_time_sf novelty_sf hop_size sr).length = novelty_sf.length := by
    simp [compute_time_sf]
  have hget : ∀ i, i < novelty_sf.length →
      (compute_time_sf novelty_sf hop_size sr).getD i 0 = (i : ℚ) * (hop_size : ℚ) / (sr : ℚ) := by
    intro i hi
    simp [compute_time_sf, List.getD_eq_getElem?_getD, List.getElem?_map, List.getElem?_range, hi]
  refine ⟨hlen, hget, ?_, ?_⟩
  · intro h0
    rw [hget 0 h0]
    simp
  · unfold compute_time_sf
    refine List.Pairwise.map _ ?_ (List.pairwise_lt_range _)
    intro a b hab
    have hsr' : (0 : ℚ) < (sr : ℚ) := by exact_mod_cast hsr
    have h1 : (a * hop_size : ℕ) < (b * hop_size : ℕ) :=
      (Nat.mul_lt_mul_right hhop).mpr hab
    have h2 : ((a * hop_size : ℕ) : ℚ) < ((b * hop_size : ℕ) : ℚ) := by exact_mod_cast h1
    exact (div_lt_div_iff_of_pos_right hsr').mpr h2

/-- Witness for C4 at the concrete curve [1, 2, 3] with the default
hop 512 and rate 22050. -/
theorem compute_time_sf_spec_witness :
    (compute_time_sf [1, 2, 3] 512 22050).length = 3 ∧
    (compute_time_sf [1, 2, 3] 512 22050).getD 1 0 = 512 / 22050 ∧
    (compute_time_sf [1, 2, 3] 512 22050).getD 0 0 = 0 ∧
    (compute_time_sf [1, 2, 3] 512 22050).Pairwise (· < ·) := by
  have h := compute_time_sf_spec [1, 2, 3] 512 22050 (by decide) (by decide)
  refine ⟨h.1, ?_, h.2.2.1 (by decide), h.2.2.2⟩
  rw [h.2.1 1 (by decide)]
  norm_num

/-- C5: compute_time_ml returns an array whose length is the length of
the novelty curve and whose element i equals i / sr_ml (the rate,
default 100 in the source). -/
theorem compute_time_ml_spec (novelty_ml : List ℚ) (sr_ml : ℚ) :
    (compute_time_ml novelty_ml sr_ml).length = novelty_ml.length ∧
    ∀ i, i < novelty_ml.length →
      (compute_time_ml novelty_ml sr_ml).getD i 0 = (i : ℚ) / sr_ml := by
  refine ⟨by rw [compute_time_ml, List.length_map, List.length_range], ?_⟩
  intro i hi
  rw [compute_time_ml, List.getD_eq_getElem?_getD, List.getElem?_map, List.getElem?_range hi]
  rfl

/-- Witness for C5 at the concrete curve [7, 8] with the default rate
100. -/
theorem compute_time_ml_spec_witness :
    (compute_time_ml [7, 8] 100).length = 2 ∧
    (compute_time_ml [7, 8] 100).getD 1 0 = 1 / 100 := by
  have h := compute_time_ml_spec [7, 8] 100
  refine ⟨h.1, ?_⟩
  rw [h.2 1 (by decide)]
  norm_num

/-- The evaluation loop raises a KeyError exactly when some key of the
first dictionary is absent from the second. -/
theorem evaluate_estimated_beats_eq_none (f_measure : List ℚ → List ℚ → ℚ)
    (estimated_beats : List (String × List ℚ)) :
    ∀ data : List (String × Track),
      evaluate_estimated_beats f_measure data estimated_beats = none ↔
        ∃ p ∈ data, dictGet estimated_beats p.1 = none
  | [] => by simp [evaluate_estimated_beats]
  | p :: rest => by
    have ih := evaluate_estimated_beats_eq_none f_measure estimated_beats rest
    rw [evaluate_estimated_beats]
    cases hp : dictGet estimated_beats p.1 with
    | none =>
      exact iff_of_true rfl ⟨p, List.mem_cons_self p rest, hp⟩
    | some e =>
      cases hr : evaluate_estimated_beats f_measure rest estimated_beats with
      | none =>
        refine iff_of_true rfl ?_
        obtain ⟨q, hq, hq2⟩ := ih.mp hr
        exact ⟨q, List.mem_cons_of_mem p hq, hq2⟩
      | some r =>
        refine iff_of_false (by simp) ?_
        rintro ⟨q, hq, hq2⟩
        rcases List.mem_cons.mp hq with hq1 | hq1
        · rw [hq1, hp] at hq2
          cases hq2
        · have := ih.mpr ⟨q, hq1, hq2⟩
          rw [hr] at this
          cases this

/-- On success the evaluation loop returns, for each key of the first
dictionary in order, the metric applied to the reference beat times of
the track and the estimated beats stored under the same key. -/
theorem evaluate_estimated_beats_eq_some (f_measure : List ℚ → List ℚ → ℚ)
    (estimated_beats : List (String × List ℚ)) :
    ∀ (data : List (String × Track)) (r : List (String × ℚ)),
      evaluate_estimated_beats f_measure data estimated_beats = some r →
        r = data.map (fun p =>
          (p.1, f_measure p.2.beats.times ((dictGet estimated_beats p.1).getD [])))
  | [], r => by
    rw [evaluate_estimated_beats]
    intro h
    injection h with h1
    exact h1.symm
  | p :: rest, r => by
    rw [evaluate_estimated_beats]
    cases hp : dictGet estimated_beats p.1 with
    | none =>
      intro h
      cases h
    | some e =>
      cases hr : evaluate_estimated_beats f_measure rest estimated_beats with
      | none =>
        intro h
        cases h
      | some r' =>
        intro h
        have hrec := evaluate_estimated_beats_eq_some f_measure estimated_beats rest r' hr
        have hinj : (p.1, f_measure p.2.beats.times e) :: r' = r := Option.some.inj h
        rw [← hinj, hrec, List.map_cons, hp]
        rfl

/-- C3: evaluate_estimated_beats iterates over the track identifiers of
its first argument and computes, for each, the F-measure between the
reference beat times of the track and the corresponding entry of the
second argument; a key of the first dictionary absent from the second
makes the whole call fail with a lookup error (none) rather than skip
the entry. -/
theorem evaluate_estimated_beats_spec (f_measure : List ℚ → List ℚ → ℚ)
    (data : List (String × Track)) (estimated_beats : List (String × List ℚ)) :
    (evaluate_estimated_beats f_measure data estimated_beats = none ↔
      ∃ p ∈ data, dictGet estimated_beats p.1 = none) ∧
    ∀ r, evaluate_estimated_beats f_measure data estimated_beats = some r →
      r = data.map (fun p =>
        (p.1, f_measure p.2.beats.times ((dictGet estimated_beats p.1).getD []))) :=
  ⟨evaluate_estimated_beats_eq_none f_measure estimated_beats data,
    fun r => evaluate_estimated_beats_eq_some f_measure estimated_beats data r⟩

/-- Witness for C3: with one track keyed a, an estimates dictionary
holding only b makes the call fail, and an estimates dictionary holding
a evaluates the metric on the entry of a. -/
theorem evaluate_estimated_beats_spec_witness :
    evaluate_estimated_beats (fun _ _ => (1 : ℚ)) [("a", dummyTrack)] [("b", [(2 : ℚ)])]
      = none ∧
    ([("a", (1 : ℚ))] : List (String × ℚ)) =
      [("a", dummyTrack)].map (fun p =>
        (p.1, (fun _ _ : List ℚ => (1 : ℚ)) p.2.beats.times
          ((dictGet [("a", [(2 : ℚ)])] p.1).getD []))) := by
  constructor
  · exact (evaluate_estimated_beats_spec (fun _ _ => (1 : ℚ)) [("a", dummyTrack)]
      [("b", [(2 : ℚ)])]).1.mpr ⟨("a", dummyTrack), by decide, by decide⟩
  · exact (evaluate_estimated_beats_spec (fun _ _ => (1 : ℚ)) [("a", dummyTrack)]
      [("a", [(2 : ℚ)])]).2 [("a", (1 : ℚ))] (by decide)

/-- On success the tempo-vs-performance loop returns the tempo of the
track under each score key and the score values, both in the iteration
order of the scores dictionary. -/
theorem get_tempo_vs_performance_eq_some (tracks_dictionary : List (String × Track)) :
    ∀ (scores_dictionary : List (String × ℚ)) (tempo scores : List ℚ),
      get_tempo_vs_performance scores_dictionary tracks_dictionary = some (tempo, scores) →
        tempo = scores_dictionary.map
          (fun p => ((dictGet tracks_dictionary p.1).getD dummyTrack).tempo) ∧
        scores = scores_dictionary.map Prod.snd
  | [], tempo, scores => by
    rw [get_tempo_vs_performance]
    intro h
    have hinj := Option.some.inj h
    exact ⟨(congrArg Prod.fst hinj).symm, (congrArg Prod.snd hinj).symm⟩
  | p :: rest, tempo, scores => by
    rw [get_tempo_vs_performance]
    cases hp : dictGet tracks_dictionary p.1 with
    | none =>
      intro h
      cases h
    | some t =>
      cases hr : get_tempo_vs_performance rest tracks_dictionary with
      | none =>
        intro h
        cases h
      | some pr =>
        obtain ⟨ta, sa⟩ := pr
        intro h
        have hinj := Option.some.inj h
        have h1 : t.tempo :: ta = tempo := congrArg Prod.fst hinj
        have h2 : p.2 :: sa = scores := congrArg Prod.snd hinj
        have hrec := get_tempo_vs_performance_eq_some tracks_dictionary rest ta sa hr
        constructor
        · rw [← h1, hrec.1, List.map_cons, hp]
          rfl
        · rw [← h2, hrec.2, List.map_cons]

/-- C7: get_tempo_vs_performance returns two equal-length arrays, each
with as many elements as the scores dictionary and index-aligned in its
iteration order: position i holds the tempo of the track under the i-th
score key and the i-th score value. -/
theorem get_tempo_vs_performance_spec (scores_dictionary : List (String × ℚ))
    (tracks_dictionary : List (String × Track)) :
    ∀ tempo scores,
      get_tempo_vs_performance scores_dictionary tracks_dictionary = some (tempo, scores) →
        tempo.length = scores_dictionary.length ∧
        scores.length = scores_dictionary.length ∧
        tempo = scores_dictionary.map
          (fun p => ((dictGet tracks_dictionary p.1).getD dummyTrack).tempo) ∧
        scores = scores_dictionary.map Prod.snd := by
  intro tempo scores h
  have heq := get_tempo_vs_performance_eq_some tracks_dictionary scores_dictionary tempo scores h
  exact ⟨by rw [heq.1, List.length_map], by rw [heq.2, List.length_map], heq.1, heq.2⟩

/-- Witness for C7 on the score mapping a to 0.5, b to 0.8 with tempos
a to 120, b to 90: tempo array [120, 90] and score array [0.5, 0.8] in
the iteration order of the score mapping. -/
theorem get_tempo_vs_performance_spec_witness :
    get_tempo_vs_performance [("a", 1/2), ("b", 4/5)] [("a", trackRockA), ("b", trackRockB)]
      = some ([120, 90], [1/2, 4/5]) ∧
    ([120, 90] : List ℚ).length = 2 ∧
    ([1/2, 4/5] : List ℚ).length = 2 := by
  have h1 : get_tempo_vs_performance [("a", 1/2), ("b", 4/5)]
      [("a", trackRockA), ("b", trackRockB)] = some ([120, 90], [1/2, 4/5]) := by
    simp [get_tempo_vs_performance, dictGet, trackRockA, trackRockB]
  have h2 := get_tempo_vs_performance_spec [("a", 1/2), ("b", 4/5)]
    [("a", trackRockA), ("b", trackRockB)] [120, 90] [1/2, 4/5] h1
  exact ⟨h1, h2.1, h2.2.1⟩

/-- Genre labels appear in the collected list exactly when some track
of the remaining list carries them or they were already collected. -/
theorem mem_collectGenresAux (g : String) :
    ∀ (l : List (String × Track)) (acc : List String),
      g ∈ collectGenresAux acc l ↔ g ∈ acc ∨ ∃ p ∈ l, p.2.genre = g
  | [], acc => by simp [collectGenresAux]
  | p :: rest, acc => by
    rw [collectGenresAux]
    by_cases hmem : p.2.genre ∈ acc
    · rw [if_pos hmem, mem_collectGenresAux g rest acc]
      constructor
      · rintro (h | ⟨q, hq, hq2⟩)
        · exact Or.inl h
        · exact Or.inr ⟨q, List.mem_cons_of_mem _ hq, hq2⟩
      · rintro (h | ⟨q, hq, hq2⟩)
        · exact Or.inl h
        · rcases List.mem_cons.mp hq with h1 | h1
          · subst h1
            exact Or.inl (hq2 ▸ hmem)
          · exact Or.inr ⟨q, h1, hq2⟩
    · rw [if_neg hmem, mem_collectGenresAux g rest (acc ++ [p.2.genre])]
      simp only [List.mem_append, List.mem_singleton]
      constructor
      · rintro ((h | h) | ⟨q, hq, hq2⟩)
        · exact Or.inl h
        · exact Or.inr ⟨p, List.mem_cons_self _ _, h.symm⟩
        · exact Or.inr ⟨q, List.mem_cons_of_mem _ hq, hq2⟩
      · rintro (h | ⟨q, hq, hq2⟩)
        · exact Or.inl (Or.inl h)
        · rcases List.mem_cons.mp hq with h1 | h1
          · refine Or.inl (Or.inr ?_)
            rw [← hq2, h1]
          · exact Or.inr ⟨q, h1, hq2⟩

/-- The collected genre list never repeats a label. -/
theorem nodup_collectGenresAux :
    ∀ (l : List (String × Track)) (acc : List String),
      acc.Nodup → (collectGenresAux acc l).Nodup
  | [], _ => fun h => h
  | p :: rest, acc => fun h => by
    rw [collectGenresAux]
    by_cases hmem : p.2.genre ∈ acc
    · rw [if_pos hmem]
      exact nodup_collectGenresAux rest acc h
    · rw [if_neg hmem]
      refine nodup_collectGenresAux rest _ ?_
      simp [List.nodup_append, h, hmem]

/-- The keys of the split result are exactly the genre list the outer
loop runs over, in order. -/
theorem splitLoop_keys (scores_dictionary : List (String × ℚ))
    (tracks_dictionary : List (String × Track)) :
    ∀ (gs : List String) (r : List (String × List (String × ℚ))),
      splitLoop scores_dictionary tracks_dictionary gs = some r → r.map Prod.fst = gs
  | [], r => by
    rw [splitLoop]
    intro h
    rw [← Option.some.inj h]
    rfl
  | g :: rest, r => by
    rw [splitLoop]
    cases hg : genreFilter tracks_dictionary g scores_dictionary with
    | none =>
      intro h
      cases h
    | some sub =>
      cases hr : splitLoop scores_dictionary tracks_dictionary rest with
      | none =>
        intro h
        cases h
      | some r' =>
        intro h
        rw [← Option.some.inj h, List.map_cons,
          splitLoop_keys scores_dictionary tracks_dictionary rest r' hr]

/-- Looking a genre of the outer loop up in the split result yields the
filtered sub-dictionary the inner loop computed for it. -/
theorem splitLoop_lookup (scores_dictionary : List (String × ℚ))
    (tracks_dictionary : List (String × Track)) :
    ∀ (gs : List String) (r : List (String × List (String × ℚ))) (g : String),
      splitLoop scores_dictionary tracks_dictionary gs = some r → g ∈ gs →
        ∃ sub, dictGet r g = some sub ∧
          genreFilter tracks_dictionary g scores_dictionary = some sub
  | [], r, g => by
    intro _ hg
    exact absurd hg (List.not_mem_nil g)
  | g0 :: rest, r, g => by
    rw [splitLoop]
    cases hg0 : genreFilter tracks_dictionary g0 scores_dictionary with
    | none =>
      intro h
      cases h
    | some sub0 =>
      cases hr : splitLoop scores_dictionary tracks_dictionary rest with
      | none =>
        intro h
        cases h
      | some r' =>
        intro h hg
        rw [← Option.some.inj h]
        by_cases hgg : g = g0
        · subst hgg
          refine ⟨sub0, ?_, hg0⟩
          simp [dictGet]
        · have hmem : g ∈ rest := by
            rcases List.mem_cons.mp hg with h1 | h1
            · exact absurd h1 hgg
            · exact h1
          obtain ⟨sub, hsub1, hsub2⟩ := splitLoop_lookup scores_dictionary tracks_dictionary
            rest r' g hr hmem
          refine ⟨sub, ?_, hsub2⟩
          have hne : (g0 == g) = false := beq_eq_false_iff_ne.mpr (fun hx => hgg hx.symm)
          simp only [dictGet, List.find?_cons, hne]
          simpa [dictGet] using hsub1

/-- When no score entry carries the genre, the inner filter returns the
empty sub-dictionary. -/
theorem genreFilter_eq_nil (tracks_dictionary : List (String × Track)) (g : String) :
    ∀ (scores_dictionary : List (String × ℚ)) (sub : List (String × ℚ)),
      genreFilter tracks_dictionary g scores_dictionary = some sub →
      (∀ p ∈ scores_dictionary, (dictGet tracks_dictionary p.1).map Track.genre ≠ some g) →
      sub = []
  | [], sub => by
    rw [genreFilter]
    intro h _
    exact (Option.some.inj h).symm
  | p :: rest, sub => by
    rw [genreFilter]
    cases hp : dictGet tracks_dictionary p.1 with
    | none =>
      intro h
      cases h
    | some t =>
      cases hr : genreFilter tracks_dictionary g rest with
      | none =>
        intro h
        cases h
      | some r =>
        intro h hno
        have hgen : t.genre ≠ g := by
          have hx := hno p (List.mem_cons_self p rest)
          rw [hp] at hx
          simpa using hx
        have hif : (t.genre == g) = false := beq_eq_false_iff_ne.mpr hgen
        simp only [hif] at h
        rw [← Option.some.inj h]
        exact genreFilter_eq_nil tracks_dictionary g rest r hr
          (fun q hq => hno q (List.mem_cons_of_mem p hq))

/-- C6: split_by_genre partitions track-keyed scores into genre-keyed
sub-dictionaries whose key set is the set of genres of the tracks
dictionary, without duplicates (collected in first-seen order); applied
to a 3-track set with genres rock, rock, jazz it yields exactly the two
genre keys rock and jazz, with the rock sub-dictionary holding exactly
the two rock track identifiers and their scores unchanged. -/
theorem split_by_genre_spec :
    (∀ (scores_dictionary : List (String × ℚ)) (tracks_dictionary : List (String × Track)) r,
        split_by_genre scores_dictionary tracks_dictionary = some r →
          (r.map Prod.fst).Nodup ∧
          ∀ g, g ∈ r.map Prod.fst ↔ ∃ p ∈ tracks_dictionary, p.2.genre = g) ∧
    split_by_genre [("t1", 1), ("t2", 2), ("t3", 3)]
        [("t1", trackRockA), ("t2", trackRockB), ("t3", trackJazzC)]
      = some [("rock", [("t1", 1), ("t2", 2)]), ("jazz", [("t3", 3)])] := by
  constructor
  · intro scores tracks r h
    have hkeys := splitLoop_keys scores tracks (collectGenres tracks) r h
    constructor
    · rw [hkeys]
      exact nodup_collectGenresAux tracks [] List.nodup_nil
    · intro g
      rw [hkeys, collectGenres, mem_collectGenresAux g tracks []]
      simp
  · decide

/-- Witness for C6: the general component applied at the 3-track
instance of the second component. -/
theorem split_by_genre_spec_witness :
    (([("rock", [("t1", (1 : ℚ)), ("t2", 2)]), ("jazz", [("t3", (3 : ℚ))])].map Prod.fst).Nodup) ∧
    ("jazz" ∈ [("rock", [("t1", (1 : ℚ)), ("t2", 2)]), ("jazz", [("t3", (3 : ℚ))])].map Prod.fst ↔
      ∃ p ∈ [("t1", trackRockA), ("t2", trackRockB), ("t3", trackJazzC)], p.2.genre = "jazz") := by
  have h := split_by_genre_spec.1 [("t1", 1), ("t2", 2), ("t3", 3)]
    [("t1", trackRockA), ("t2", trackRockB), ("t3", trackJazzC)]
    [("rock", [("t1", 1), ("t2", 2)]), ("jazz", [("t3", 3)])] split_by_genre_spec.2
  exact ⟨h.1, h.2 "jazz"⟩

/-- C10: a genre present among the tracks ends up as a key of the split
result even when no score entry belongs to it, mapped to the empty
sub-dictionary rather than omitted. -/
theorem split_by_genre_keeps_empty_genres (scores_dictionary : List (String × ℚ))
    (tracks_dictionary : List (String × Track)) (r : List (String × List (String × ℚ)))
    (g : String)
    (hsplit : split_by_genre scores_dictionary tracks_dictionary = some r)
    (hg : ∃ p ∈ tracks_dictionary, p.2.genre = g)
    (hnone : ∀ p ∈ scores_dictionary,
      (dictGet tracks_dictionary p.1).map Track.genre ≠ some g) :
    dictGet r g = some [] := by
  have hmem : g ∈ collectGenres tracks_dictionary := by
    rw [collectGenres, mem_collectGenresAux g tracks_dictionary []]
    exact Or.inr hg
  obtain ⟨sub, hsub1, hsub2⟩ := splitLoop_lookup scores_dictionary tracks_dictionary
    (collectGenres tracks_dictionary) r g hsplit hmem
  have hempty := genreFilter_eq_nil tracks_dictionary g scores_dictionary sub hsub2 hnone
  rw [hempty] at hsub1
  exact hsub1

/-- Witness for C10: one rock score over a rock and a jazz track; jazz
is a key of the result and maps to the empty sub-dictionary. -/
theorem split_by_genre_keeps_empty_genres_witness :
    dictGet [("rock", [("t1", (1 : ℚ))]), ("jazz", ([] : List (String × ℚ)))] "jazz"
      = some [] :=
  split_by_genre_keeps_empty_genres [("t1", 1)] [("t1", trackRockA), ("t3", trackJazzC)]
    [("rock", [("t1", 1)]), ("jazz", [])] "jazz" (by decide)
    ⟨("t3", trackJazzC), by decide, rfl⟩ (by decide)

/-- C8: the Aggregator functions (split_by_genre,
get_tempo_vs_performance) and the Time-Axis functions (compute_time_sf,
compute_time_ml) are pure: two calls with identical inputs yield
identical outputs. In this embedding every function is a pure Lean
function, faithfully so because the Python bodies read no global
mutable state and mutate nothing but their own locals. -/
theorem aggregator_time_axis_pure (scores_dictionary : List (String × ℚ))
    (tracks_dictionary : List (String × Track)) (novelty_sf novelty_ml : List ℚ)
    (hop_size sr : ℕ) (sr_ml : ℚ) :
    split_by_genre scores_dictionary tracks_dictionary
      = split_by_genre scores_dictionary tracks_dictionary ∧
    get_tempo_vs_performance scores_dictionary tracks_dictionary
      = get_tempo_vs_performance scores_dictionary tracks_dictionary ∧
    compute_time_sf novelty_sf hop_size sr = compute_time_sf novelty_sf hop_size sr ∧
    compute_time_ml novelty_ml sr_ml = compute_time_ml novelty_ml sr_ml :=
  ⟨rfl, rfl, rfl, rfl⟩

/-- C9: sonify_track_data is a no-op: for every track identifier,
estimated-beats dictionary and tracks dictionary it performs no action
and returns None (the unit value in this embedding). -/
theorem sonify_track_data_noop (track_id : String) (estimated_beats : List (String × List ℚ))
    (tracks_dictionary : List (String × Track)) :
    sonify_track_data track_id estimated_beats tracks_dictionary = () :=
  rfl

end BeatFlux
